import Mathlib

/-!
Verification development for the meta-stremio coordination core
(`src/storage/leader_discovery.py`, `src/storage/leader_storage.py`,
`src/storage/service_discovery.py`, `src/storage/leader_client.py`).

The Python modules are shallowly embedded: every function below is a direct
translation of the corresponding Python function, with file system and network
effects turned into explicit inputs (directory listings, probe outcomes,
fetch results) and side effects (callback invocations, lock operations)
turned into explicit event/action traces.  All Python exception handlers in
the translated code catch the exception locally, so each embedded function is
total; "never raises" claims correspond to the functions being total Lean
functions returning `Option`/`Except`.
-/

namespace MetaStremio

namespace LeaderDiscovery

/-- `LeaderLockInfo` dataclass of `leader_discovery.py`. -/
structure LeaderLockInfo where
  host : String
  api : String
  http : String
  timestamp : Int
  pid : Int
deriving DecidableEq

/-- One parsed JSON object read from the pointer file: each field of the
Python dict is optional (`data.get(...)`). -/
structure JsonPtr where
  host : Option String
  api : Option String
  http : Option String
  timestamp : Option Int
  pid : Option Int
deriving DecidableEq

/-- Outcome of reading the pointer file in `_check_for_leader`:
`notFound` is the `FileNotFoundError` path, `corrupt` is the
`json.JSONDecodeError` path (truncated / invalid JSON; the generic
`except Exception` path behaves the same way: log and leave state unchanged),
`ok j` is a successfully parsed JSON object. -/
inductive ReadResult where
  | notFound
  | corrupt
  | ok (j : JsonPtr)
deriving DecidableEq

/-- Observable callback firings of the watcher. -/
inductive Event where
  | found (info : LeaderLockInfo)
  | lost
deriving DecidableEq

/-- Mutable state of a `LeaderDiscovery` instance: current leader info,
consecutive health-check failures, and whether the found / lost callbacks
have been registered (`self._on_leader_found_callback` /
`self._on_leader_lost_callback` being non-None). -/
structure DiscState where
  leaderInfo : Option LeaderLockInfo
  consecutiveFailures : Nat
  foundCb : Bool
  lostCb : Bool
deriving DecidableEq

/-- Python truthiness of `data.get(k)` for a string field:
present and non-empty. -/
def truthy : Option String → Bool
  | none => false
  | some s => s ≠ ""

/-- Construction of `LeaderLockInfo` from the parsed dict in
`_check_for_leader` (defaults as in the source: `host` defaults to
`"unknown"`, `timestamp`/`pid` to `0`). -/
def info_of_json (j : JsonPtr) : LeaderLockInfo :=
  { host := j.host.getD "unknown"
    api := j.api.getD ""
    http := j.http.getD ""
    timestamp := j.timestamp.getD 0
    pid := j.pid.getD 0 }

/-- `LeaderDiscovery._handle_leader_lost`: clear the leader and fire the
lost callback if registered. -/
def handle_leader_lost (s : DiscState) : DiscState × List Event :=
  ({ s with leaderInfo := none }, if s.lostCb then [Event.lost] else [])

/-- `LeaderDiscovery._check_for_leader`: read the pointer file, validate the
`api`/`http` fields, update the leader and fire the found callback only when
the leader identity (its `api` endpoint) is new; a missing file with a known
leader triggers `_handle_leader_lost`; a parse error leaves everything
unchanged. -/
def check_for_leader (s : DiscState) (r : ReadResult) : DiscState × List Event :=
  match r with
  | .ok j =>
    if truthy j.api && truthy j.http then
      let info := info_of_json j
      let isNew : Bool :=
        match s.leaderInfo with
        | none => true
        | some cur => cur.api ≠ info.api
      ({ s with leaderInfo := some info, consecutiveFailures := 0 },
       if isNew && s.foundCb then [Event.found info] else [])
    else (s, [])
  | .notFound =>
    match s.leaderInfo with
    | some _ => handle_leader_lost s
    | none => (s, [])
  | .corrupt => (s, [])

/-- One iteration of the `health_check_loop` body in
`LeaderDiscovery._start_health_check`: with no known leader it rescans the
pointer file; with a known leader it probes health (`probe` is the outcome of
`_is_leader_healthy`), resets the failure counter on success, increments on
failure, and at `maxFailures` consecutive failures marks the leader lost and
immediately rescans. -/
def health_tick (maxFailures : Nat) (s : DiscState) (probe : Bool)
    (r : ReadResult) : DiscState × List Event :=
  match s.leaderInfo with
  | none => check_for_leader s r
  | some _ =>
    if probe then ({ s with consecutiveFailures := 0 }, [])
    else
      let s1 := { s with consecutiveFailures := s.consecutiveFailures + 1 }
      if maxFailures ≤ s1.consecutiveFailures then
        let (s2, e2) := handle_leader_lost s1
        let (s3, e3) := check_for_leader s2 r
        (s3, e2 ++ e3)
      else (s1, [])

/-- Run the health-check loop over a finite sequence of
(probe outcome, pointer-file read) inputs, collecting all callback events. -/
def run_ticks (maxFailures : Nat) :
    DiscState → List (Bool × ReadResult) → DiscState × List Event
  | s, [] => (s, [])
  | s, (probe, r) :: rest =>
    let (s1, e1) := health_tick maxFailures s probe r
    let (s2, e2) := run_ticks maxFailures s1 rest
    (s2, e1 ++ e2)

/-- Run a sequence of rescans (`_check_for_leader` invocations, as triggered
by the poll loop or the file watcher), collecting all callback events. -/
def run_checks : DiscState → List ReadResult → DiscState × List Event
  | s, [] => (s, [])
  | s, r :: rest =>
    let (s1, e1) := check_for_leader s r
    let (s2, e2) := run_checks s1 rest
    (s2, e1 ++ e2)

/-- `LeaderDiscovery.on_leader_found`: store the callback and, when a leader
is already known, invoke it immediately with the current leader info. -/
def on_leader_found_register (s : DiscState) : DiscState × List Event :=
  ({ s with foundCb := true },
   match s.leaderInfo with
   | some info => [Event.found info]
   | none => [])

/-- Number of found-callback firings carrying a given leader identity
(`api` data endpoint). -/
def found_count (events : List Event) (api : String) : Nat :=
  events.countP fun e =>
    match e with
    | .found info => info.api == api
    | .lost => false

/-- A sample known-leader state used in concrete counterexamples. -/
def sampleInfo : LeaderLockInfo :=
  { host := "h1", api := "redis://10.0.0.5:6379", http := "http://10.0.0.5:9000"
    timestamp := 0, pid := 42 }

/-- A known-leader state with both callbacks registered. -/
def sampleKnownState : DiscState :=
  { leaderInfo := some sampleInfo, consecutiveFailures := 0
    foundCb := true, lostCb := true }

/-- The initial watcher state: no leader, both callbacks registered. -/
def initState : DiscState :=
  { leaderInfo := none, consecutiveFailures := 0, foundCb := true, lostCb := true }

/-- A valid pointer-file JSON object for leader identity `redis://a`. -/
def jsonA : JsonPtr :=
  { host := some "hA", api := some "redis://a", http := some "http://a"
    timestamp := some 1, pid := some 1 }

/-- A valid pointer-file JSON object for leader identity `redis://b`. -/
def jsonB : JsonPtr :=
  { host := some "hB", api := some "redis://b", http := some "http://b"
    timestamp := some 2, pid := some 2 }

end LeaderDiscovery

namespace LeaderStorage

/-- Atomic observable actions of a `LeaderStorage` instance: lock operations
on its single mutex `self._lock`, Redis connection operations, mutations of
the connected flag, and user callback invocations (`readyCb k` /
`disconnectCb k` is the invocation of the k-th registered callback). -/
inductive Act where
  | acquire
  | release
  | closeConn
  | openConn (url : String)
  | pingConn
  | setConnected (b : Bool)
  | readyCb (k : Nat)
  | disconnectCb (k : Nat)
deriving DecidableEq

/-- The genuinely shared mutable state of `LeaderStorage`: the Redis client
handle (modelled by the URL it was opened with) and the connected flag. -/
structure ConnState where
  client : Option String
  connected : Bool
deriving DecidableEq

/-- `LeaderStorage._disconnect_redis_unlocked`: close the client if any
(errors ignored), clear it, and clear the connected flag. -/
def disconnect_redis_unlocked (s : ConnState) : ConnState × List Act :=
  (⟨none, false⟩,
   (if s.client.isSome then [Act.closeConn] else []) ++ [Act.setConnected false])

/-- `LeaderStorage._connect_to_redis`: everything happens inside
`with self._lock:` — close the prior connection, open a new client to `url`,
verify it with a ping (`pingOk` is the outcome), set the connected flag and
invoke the `nReady` registered ready callbacks, all before the lock is
released; on failure the client is cleared and the flag reset, still under
the lock.  Callback exceptions are caught inside `_notify_ready`. -/
def connect_to_redis (s : ConnState) (url : String) (pingOk : Bool)
    (nReady : Nat) : ConnState × List Act :=
  let (_, closeActs) := disconnect_redis_unlocked s
  if pingOk then
    (⟨some url, true⟩,
     Act.acquire :: closeActs
       ++ [Act.openConn url, Act.pingConn, Act.setConnected true]
       ++ (List.range nReady).map Act.readyCb ++ [Act.release])
  else
    (⟨none, false⟩,
     Act.acquire :: closeActs
       ++ [Act.openConn url, Act.pingConn, Act.setConnected false, Act.release])

/-- `LeaderStorage._on_leader_lost`: tear the connection down under the lock
(`_disconnect_redis`), then — after the lock is released — invoke the
`nDisc` registered disconnect callbacks (`_notify_disconnect`). -/
def storage_on_leader_lost (s : ConnState) (nDisc : Nat) : ConnState × List Act :=
  let (s1, closeActs) := disconnect_redis_unlocked s
  (s1, Act.acquire :: closeActs ++ [Act.release]
        ++ (List.range nDisc).map Act.disconnectCb)

/-- `LeaderStorage`'s reaction to the watcher's callback events:
`_on_leader_found` connects to the new leader's data endpoint (`info.api`);
`_on_leader_lost` disconnects and notifies.  `pingOk` fixes every connection
verification to succeed. -/
def process_events (nReady nDisc : Nat) (pingOk : Bool) :
    ConnState → List LeaderDiscovery.Event → ConnState × List Act
  | s, [] => (s, [])
  | s, LeaderDiscovery.Event.found info :: rest =>
    let (s1, tr1) := connect_to_redis s info.api pingOk nReady
    let (s2, tr2) := process_events nReady nDisc pingOk s1 rest
    (s2, tr1 ++ tr2)
  | s, LeaderDiscovery.Event.lost :: rest =>
    let (s1, tr1) := storage_on_leader_lost s nDisc
    let (s2, tr2) := process_events nReady nDisc pingOk s1 rest
    (s2, tr1 ++ tr2)

/-- Whether an action acquires the mutex. -/
def isAcquire : Act → Bool
  | Act.acquire => true
  | _ => false

/-- Whether an action releases the mutex. -/
def isRelease : Act → Bool
  | Act.release => true
  | _ => false

/-- Whether an action opens a new downstream connection. -/
def isOpenAct : Act → Bool
  | Act.openConn _ => true
  | _ => false

/-- Whether an action closes (tears down) a downstream connection. -/
def isCloseAct : Act → Bool
  | Act.closeConn => true
  | _ => false

/-- The mutex is held at position `i` of a trace iff strictly more acquires
than releases precede position `i`. -/
def lock_held_before (tr : List Act) (i : Nat) : Bool :=
  (tr.take i).countP isRelease < (tr.take i).countP isAcquire

end LeaderStorage

namespace ServiceDiscovery

/-- A parsed service record (`ServiceInfo` of `service_discovery.py`).
Times are integers measured in seconds (every claim only compares heartbeat
ages against the threshold, so the fractional part of the float age is
irrelevant); `lastHeartbeat = none` models a missing, empty or unparsable
`lastHeartbeat` field (any of which makes the `datetime` parse in
`_is_service_stale` fail). -/
structure ServiceInfo where
  name : String
  hostname : String
  baseUrl : String
  status : String
  lastHeartbeat : Option ℤ
  role : Option String
deriving DecidableEq

/-- `ServiceDiscovery._is_service_stale`: a record with no parsable
heartbeat is stale; otherwise it is stale iff its age strictly exceeds the
staleness threshold (`age > self.stale_threshold`). -/
def is_service_stale (threshold now : ℤ) (info : ServiceInfo) : Bool :=
  match info.lastHeartbeat with
  | none => true
  | some t => now - t > threshold

/-- The liveness test applied by both discovery functions:
`not self._is_service_stale(info) and info.get('status') == 'running'`. -/
def is_live (threshold now : ℤ) (info : ServiceInfo) : Bool :=
  !is_service_stale threshold now info && info.status == "running"

/-- Liveness as worded by the spec (`Modelled from the spec` for the
refinement comparison of C3): `now − lastHeartbeat < stalenessThreshold` and
`status == running`. -/
def live_spec (threshold now : ℤ) (info : ServiceInfo) : Bool :=
  match info.lastHeartbeat with
  | none => false
  | some t => (now - t < threshold : Bool) && info.status == "running"

/-- Python `str.startswith`, embedded as a prefix test on the character
list so that it evaluates by kernel reduction. -/
def starts_with (s p : String) : Bool :=
  p.data.isPrefixOf s.data

/-- Python `str.endswith`, embedded as a suffix test on the character
list so that it evaluates by kernel reduction. -/
def ends_with (s p : String) : Bool :=
  p.data.isSuffixOf s.data

/-- One entry of the services directory listing: file name and parse result
(`none` models an unreadable file or invalid JSON). -/
abbrev DirEntry := String × Option ServiceInfo

/-- `os.path.exists` plus `open`/`json.load` for one exact file name. -/
def lookup_file (dir : List DirEntry) (fn : String) : Option (Option ServiceInfo) :=
  (dir.find? fun e => e.1 == fn).map Prod.snd

/-- The `for filename in os.listdir(...)` loop of
`ServiceDiscovery.discover_service`: scan entries in order, consider only
files matching `{name}-*.json`, return the first live one.  A read/parse
failure inside the loop propagates to the function's outer handler, which
returns `None` (aborting the rest of the scan). -/
def scan_hostname_files (threshold now : ℤ) (name : String) :
    List DirEntry → Option ServiceInfo
  | [] => none
  | (fn, c) :: rest =>
    if starts_with fn (name ++ "-") && ends_with fn ".json" then
      match c with
      | none => none
      | some info =>
        if is_live threshold now info then some info
        else scan_hostname_files threshold now name rest
    else scan_hostname_files threshold now name rest

/-- `ServiceDiscovery.discover_service`: first try the exact legacy file
`{name}.json` (returning its record when live), then scan the directory for
`{name}-*.json` files and return the first live match, or `None`. -/
def discover_service (threshold now : ℤ) (dir : List DirEntry) (name : String) :
    Option ServiceInfo :=
  match lookup_file dir (name ++ ".json") with
  | some none => none
  | some (some info) =>
    if is_live threshold now info then some info
    else scan_hostname_files threshold now name dir
  | none => scan_hostname_files threshold now name dir

/-- The behaviour claimed by the spec for `discover(name)` (`Modelled from
the spec` for the refinement comparison of C7): scan record files by
name-prefix match and only fall back to the exact legacy filename when the
prefix scan finds nothing. -/
def discover_service_claimed (threshold now : ℤ) (dir : List DirEntry)
    (name : String) : Option ServiceInfo :=
  match scan_hostname_files threshold now name dir with
  | some info => some info
  | none =>
    match lookup_file dir (name ++ ".json") with
    | some (some info) => if is_live threshold now info then some info else none
    | _ => none

/-- The scanning loop of `ServiceDiscovery.discover_all_services`,
accumulating the deduplicated non-meta-core services and the list of live
meta-core instances.  Per-file read/parse failures are caught by the inner
handler and skip only that file. -/
def discover_all_loop (threshold now : ℤ) :
    List DirEntry → List String → List ServiceInfo → List ServiceInfo →
      List ServiceInfo × List ServiceInfo
  | [], _, svcs, mc => (svcs, mc)
  | (fn, c) :: rest, seen, svcs, mc =>
    if ends_with fn ".json" then
      match c with
      | none => discover_all_loop threshold now rest seen svcs mc
      | some info =>
        if is_service_stale threshold now info then
          discover_all_loop threshold now rest seen svcs mc
        else if info.status ≠ "running" then
          discover_all_loop threshold now rest seen svcs mc
        else if info.name = "meta-core" then
          discover_all_loop threshold now rest seen svcs (mc ++ [info])
        else if info.name ≠ "" ∧ info.name ∉ seen then
          discover_all_loop threshold now rest (seen ++ [info.name])
            (svcs ++ [info]) mc
        else discover_all_loop threshold now rest seen svcs mc
    else discover_all_loop threshold now rest seen svcs mc

/-- `ServiceDiscovery.discover_all_services`: scan all `.json` records,
drop stale or non-running ones, deduplicate non-meta-core services by name
(first found wins), and append exactly one meta-core representative chosen
by the leader tie-break (`next((s for s in instances if role == leader),
instances[0])`). -/
def discover_all_services (threshold now : ℤ) (dir : List DirEntry) :
    List ServiceInfo :=
  let (svcs, mc) := discover_all_loop threshold now dir [] [] []
  match mc with
  | [] => svcs
  | h :: _ =>
    svcs ++ [((mc.find? fun s => s.role == some "leader").getD h)]

/-- The live meta-core candidates of a directory listing, in enumeration
order. -/
def meta_core_candidates (threshold now : ℤ) (dir : List DirEntry) :
    List ServiceInfo :=
  ((dir.filter fun e => ends_with e.1 ".json").filterMap Prod.snd).filter
    fun i => is_live threshold now i && i.name == "meta-core"

/-- On-disk JSON object of a service record, as a key/value association
list (`json.load` of the record file). -/
abbrev Json := List (String × String)

/-- Python dict assignment `d[k] = v`: replace the value of an existing key
in place, else append the new binding. -/
def set_key : Json → String → String → Json
  | [], k, v => [(k, v)]
  | (k1, v1) :: rest, k, v =>
    if k1 == k then (k, v) :: rest else (k1, v1) :: set_key rest k v

/-- Configuration of the local registrar (service name, hostname, base URL
of this process). -/
structure ServiceConfig where
  service_name : String
  hostname : String
  base_url : String

/-- `ServiceDiscovery._build_service_info` followed by `to_dict`: the
simplified record format; `role` is `None` and therefore omitted from the
serialized dict. -/
def build_service_info (cfg : ServiceConfig) (status now : String) : Json :=
  [("name", cfg.service_name), ("hostname", cfg.hostname),
   ("baseUrl", cfg.base_url), ("status", status), ("lastHeartbeat", now)]

/-- `ServiceDiscovery.register`: write this process's record with status
`starting` and the current timestamp. -/
def register (cfg : ServiceConfig) (now : String) : Json :=
  build_service_info cfg "starting" now

/-- `ServiceDiscovery.update_status`: read-modify-write of the `status` and
`lastHeartbeat` fields of the record file; when the file is missing the
raised error is caught and nothing is written. -/
def update_status (file : Option Json) (status now : String) : Option Json :=
  file.map fun d => set_key (set_key d "status" status) "lastHeartbeat" now

/-- `ServiceDiscovery.heartbeat`: rewrite the `lastHeartbeat` field of the
existing record file; when the file is missing (`FileNotFoundError`),
re-register via `register()` and `update_status('running')`. -/
def heartbeat (cfg : ServiceConfig) (file : Option Json) (now : String) :
    Option Json :=
  match file with
  | some d => some (set_key d "lastHeartbeat" now)
  | none => update_status (some (register cfg now)) "running" now

/-- A running record whose heartbeat age at `now = 60`, `threshold = 60` is
exactly the threshold. -/
def boundaryInfo : ServiceInfo :=
  { name := "svc", hostname := "h1", baseUrl := "http://10.0.0.1:7000"
    status := "running", lastHeartbeat := some 0, role := none }

/-- A live record stored under the exact legacy filename `svc.json`. -/
def exactInfo : ServiceInfo :=
  { name := "svc", hostname := "legacy", baseUrl := "http://legacy:7000"
    status := "running", lastHeartbeat := some 50, role := none }

/-- A live record stored under the hostname-based filename `svc-h1.json`. -/
def prefixInfo : ServiceInfo :=
  { name := "svc", hostname := "h1", baseUrl := "http://h1:7000"
    status := "running", lastHeartbeat := some 55, role := none }

end ServiceDiscovery

namespace LeaderClient

/-- `LeaderLockInfo` dataclass of `leader_client.py`. -/
structure LeaderLockInfo where
  hostname : String
  base_url : String
  api_url : String
  redis_url : String
  webdav_url : String
  timestamp : Int
  pid : Int
deriving DecidableEq

/-- `URLsResponse` dataclass: the descriptor returned by the meta-core
`/urls` control API. -/
structure URLsResponse where
  hostname : String
  base_url : String
  api_url : String
  redis_url : String
  webdav_url : String
  is_leader : Bool
deriving DecidableEq

/-- Outcome of reading the plain-text pointer file in
`LeaderClient._get_api_url_from_file`: missing file (`FileNotFoundError`),
readable content, or any other read error. -/
inductive TextRead where
  | notFound
  | content (s : String)
  | err
deriving DecidableEq

/-- `LeaderClient._get_api_url_from_file`: a missing file or read error is
logged and reported as `None`; content is stripped, and empty content is
also `None` (`content.strip() or None`). -/
def api_url_from_file : TextRead → Option String
  | .notFound => none
  | .err => none
  | .content s => if s.trim = "" then none else some s.trim

/-- `LeaderClient.get_leader_info`: read the API URL from the pointer file,
fetch the descriptor from its `/urls` endpoint (`fetch` models
`_fetch_urls`, whose network or parse failures are caught and yield `None`),
and build the leader info; any absence along the way is reported as `None`,
never as an exception. -/
def get_leader_info (read : TextRead) (fetch : String → Option URLsResponse)
    (nowMs : Int) : Option LeaderLockInfo :=
  match api_url_from_file read with
  | none => none
  | some u =>
    match fetch u with
    | none => none
    | some urls =>
      some ⟨urls.hostname, urls.base_url, urls.api_url, urls.redis_url,
        urls.webdav_url, nowMs, 0⟩

/-- `LeaderClient.wait_for_leader`: poll `get_leader_info` until it returns
a leader or the deadline expires; `polls` is the sequence of
`get_leader_info` results observed at the successive poll instants inside
the deadline.  The exhausted list is the deadline expiring, which raises
`TimeoutError` — the only error surfaced to a caller. -/
def wait_for_leader : List (Option LeaderLockInfo) → Except String LeaderLockInfo
  | [] => Except.error "No leader found within timeout"
  | none :: rest => wait_for_leader rest
  | some info :: _ => Except.ok info

end LeaderClient

end MetaStremio

namespace MetaStremio

namespace LeaderDiscovery

/-- C1, counterexample: with a leader currently known, a corrupt pointer file
does NOT behave like a missing pointer file: the missing file clears the
leader and fires the lost callback, while the corrupt file leaves the known
leader in place and fires nothing.  This falsifies the claim that the two are
processed identically in every watcher state. -/
theorem corrupt_vs_missing_counterexample :
    ¬ (∀ s : DiscState, check_for_leader s ReadResult.corrupt
        = check_for_leader s ReadResult.notFound) := by
  intro h
  have hc := h sampleKnownState
  exact absurd hc (by decide)

/-- C1, amended: a truncated / corrupt pointer file never raises and leaves
the watcher state and callbacks completely unchanged; it behaves identically
to a missing pointer file precisely when no leader is currently known (both
are then a no-op reporting no leader), whereas with a known leader a missing
file triggers the leader-lost transition and a corrupt file does not. -/
theorem corrupt_pointer_behavior (s : DiscState) :
    check_for_leader s ReadResult.corrupt = (s, [])
      ∧ (s.leaderInfo = none →
          check_for_leader s ReadResult.corrupt
            = check_for_leader s ReadResult.notFound) := by
  refine ⟨rfl, fun h => ?_⟩
  simp [check_for_leader, h]

/-- Witness for `corrupt_pointer_behavior` at a concrete no-leader state. -/
theorem corrupt_pointer_behavior_witness :
    check_for_leader ⟨none, 0, true, true⟩ ReadResult.corrupt
      = check_for_leader ⟨none, 0, true, true⟩ ReadResult.notFound :=
  (corrupt_pointer_behavior ⟨none, 0, true, true⟩).2 rfl

/-- C4: against a known leader with failure threshold 3, the probe sequence
fail, fail, success, fail, fail, fail leaves the leader known (with two
recorded consecutive failures and no callback) after the first five probes,
and only the third consecutive failure after the success transitions to
no-leader, firing exactly one lost callback over the whole run. -/
theorem probe_sequence_third_failure (info : LeaderLockInfo) :
    run_ticks 3 ⟨some info, 0, true, true⟩
        [(false, ReadResult.notFound), (false, ReadResult.notFound),
         (true, ReadResult.notFound), (false, ReadResult.notFound),
         (false, ReadResult.notFound)]
      = (⟨some info, 2, true, true⟩, [])
    ∧ run_ticks 3 ⟨some info, 0, true, true⟩
        [(false, ReadResult.notFound), (false, ReadResult.notFound),
         (true, ReadResult.notFound), (false, ReadResult.notFound),
         (false, ReadResult.notFound), (false, ReadResult.notFound)]
      = (⟨none, 3, true, true⟩, [Event.lost]) :=
  ⟨rfl, rfl⟩

/-- C10: registering the on-leader-found callback while a leader is already
known invokes it immediately and synchronously with the current leader info;
registering with no known leader invokes nothing. -/
theorem on_leader_found_register_immediate (s : DiscState) :
    (s.leaderInfo = none →
        on_leader_found_register s = ({ s with foundCb := true }, []))
    ∧ ∀ info, s.leaderInfo = some info →
        on_leader_found_register s
          = ({ s with foundCb := true }, [Event.found info]) := by
  constructor
  · intro h
    simp [on_leader_found_register, h]
  · intro info h
    simp [on_leader_found_register, h]

/-- Witness for `on_leader_found_register_immediate` at a concrete
known-leader state. -/
theorem on_leader_found_register_immediate_witness :
    on_leader_found_register sampleKnownState
      = ({ sampleKnownState with foundCb := true }, [Event.found sampleInfo]) :=
  (on_leader_found_register_immediate sampleKnownState).2 sampleInfo rfl

/-- C5, counterexample: the on-found callback does NOT fire at most once per
distinct leader identity over every rescan sequence: observing leader `a`,
then leader `b`, then leader `a` again fires the found callback twice for
identity `redis://a` (the code compares only against the current leader, not
against all previously observed identities). -/
theorem found_once_per_identity_counterexample :
    ¬ (∀ (reads : List ReadResult) (api : String),
        found_count (run_checks initState reads).2 api ≤ 1) := by
  intro h
  have hc := h [ReadResult.ok jsonA, ReadResult.ok jsonB, ReadResult.ok jsonA]
    "redis://a"
  exact absurd hc (by decide)

end LeaderDiscovery

namespace LeaderStorage

/-- An action is a release exactly when it is `Act.release`. -/
theorem isRelease_iff (a : Act) : isRelease a = true ↔ a = Act.release := by
  cases a <;> simp [isRelease]

/-- In a trace of the form `acquire :: mid ++ [release]` where `mid` contains
no release, the mutex is held at every position of `mid`. -/
theorem lock_held_of_shape (mid : List Act) (hR : Act.release ∉ mid) (i : Nat)
    (h1 : 1 ≤ i) (h2 : i ≤ mid.length + 1) :
    lock_held_before (Act.acquire :: (mid ++ [Act.release])) i = true := by
  simp only [lock_held_before, decide_eq_true_eq]
  obtain ⟨j, rfl⟩ : ∃ j, i = j + 1 :=
    ⟨i - 1, (Nat.succ_pred_eq_of_pos h1).symm⟩
  have hj : j ≤ mid.length := by omega
  rw [List.take_succ_cons, List.take_append_of_le_length hj]
  have hz : (List.take j mid).countP isRelease = 0 := by
    refine List.countP_eq_zero.mpr fun a ha hrel => ?_
    exact hR ((isRelease_iff a).mp hrel ▸ List.take_subset j mid ha)
  rw [List.countP_cons, List.countP_cons, hz]
  simp [isRelease, isAcquire]

/-- C2, counterexample: the ready callbacks are NOT invoked after the mutex
is released: on a successful connect with one registered ready callback, the
callback invocation occurs at trace position 5, where the mutex is still
held (`_notify_ready` is called inside the `with self._lock:` block of
`_connect_to_redis`). -/
theorem ready_callback_outside_lock_counterexample :
    ¬ (∀ (s : ConnState) (url : String) (nReady i k : Nat),
        (connect_to_redis s url true nReady).2.get? i = some (Act.readyCb k) →
        lock_held_before (connect_to_redis s url true nReady).2 i = false) := by
  intro h
  have hc := h ⟨none, false⟩ "redis://a" 1 5 0 (by decide)
  exact absurd hc (by decide)

/-- C2, amended: on a leader-found event whose verification round-trip
succeeds, `_connect_to_redis` acquires the single mutex, closes the prior
connection (when one exists), opens the new connection, verifies it with a
ping, marks the consumer connected, then invokes all registered ready
callbacks while STILL holding the mutex, and releases the lock only after
the callbacks return; every ready-callback invocation in the trace happens
with the mutex held. -/
theorem connect_to_redis_ready_under_lock (s : ConnState) (url : String)
    (nReady : Nat) :
    (connect_to_redis s url true nReady).1 = ⟨some url, true⟩
    ∧ (connect_to_redis s url true nReady).2
        = Act.acquire ::
            (((if s.client.isSome then [Act.closeConn] else [])
                ++ [Act.setConnected false, Act.openConn url, Act.pingConn,
                    Act.setConnected true]
                ++ (List.range nReady).map Act.readyCb) ++ [Act.release])
    ∧ (∀ k, k < nReady → Act.readyCb k ∈ (connect_to_redis s url true nReady).2)
    ∧ ∀ i k,
        (connect_to_redis s url true nReady).2.get? i = some (Act.readyCb k) →
        lock_held_before (connect_to_redis s url true nReady).2 i = true := by
  have htr : (connect_to_redis s url true nReady).2
      = Act.acquire ::
          (((if s.client.isSome then [Act.closeConn] else [])
              ++ [Act.setConnected false, Act.openConn url, Act.pingConn,
                  Act.setConnected true]
              ++ (List.range nReady).map Act.readyCb) ++ [Act.release]) := by
    simp [connect_to_redis, disconnect_redis_unlocked]
  have hR : Act.release ∉
      ((if s.client.isSome then [Act.closeConn] else [])
          ++ [Act.setConnected false, Act.openConn url, Act.pingConn,
              Act.setConnected true]
          ++ (List.range nReady).map Act.readyCb) := by
    cases hc : s.client <;> simp [hc]
  refine ⟨by simp [connect_to_redis, disconnect_redis_unlocked], htr, ?_, ?_⟩
  · intro k hk
    have hm : Act.readyCb k ∈ (List.range nReady).map Act.readyCb :=
      List.mem_map.mpr ⟨k, List.mem_range.mpr hk, rfl⟩
    rw [htr]
    exact List.mem_cons_of_mem _
      (List.mem_append_left _ (List.mem_append_right _ hm))
  · intro i k hg
    rw [htr] at hg ⊢
    generalize hmid : ((if s.client.isSome then [Act.closeConn] else [])
        ++ [Act.setConnected false, Act.openConn url, Act.pingConn,
            Act.setConnected true]
        ++ (List.range nReady).map Act.readyCb) = mid at hg hR ⊢
    have h1 : 1 ≤ i := by
      rcases Nat.eq_zero_or_pos i with h0 | h0
      · subst h0
        simp [List.get?] at hg
      · exact h0
    obtain ⟨hlt, -⟩ := List.get?_eq_some.mp hg
    refine lock_held_of_shape mid hR i h1 ?_
    simp only [List.length_cons, List.length_append, List.length_singleton,
      List.length_nil] at hlt
    omega

/-- Witness for `connect_to_redis_ready_under_lock`: in the concrete
successful connect with one ready callback, the callback at position 5 runs
with the mutex held. -/
theorem connect_to_redis_ready_under_lock_witness :
    lock_held_before ((connect_to_redis ⟨none, false⟩ "redis://a" true 1).2) 5
      = true :=
  (connect_to_redis_ready_under_lock ⟨none, false⟩ "redis://a" 1).2.2.2 5 0
    (by decide)

/-- Re-observing the current leader is a no-op of `_check_for_leader`: the
state is unchanged (the failure counter is already zero) and no callback
fires, because the observed `api` equals the current one. -/
theorem check_for_leader_fixed (j : LeaderDiscovery.JsonPtr) (fb lb : Bool)
    (hapi : LeaderDiscovery.truthy j.api = true)
    (hhttp : LeaderDiscovery.truthy j.http = true) :
    LeaderDiscovery.check_for_leader
        ⟨some (LeaderDiscovery.info_of_json j), 0, fb, lb⟩
        (LeaderDiscovery.ReadResult.ok j)
      = (⟨some (LeaderDiscovery.info_of_json j), 0, fb, lb⟩, []) := by
  simp [LeaderDiscovery.check_for_leader, hapi, hhttp]

/-- Any number of repeated observations of the current leader leaves the
watcher state unchanged and fires no callback. -/
theorem run_checks_fixed (j : LeaderDiscovery.JsonPtr) (fb lb : Bool) (n : Nat)
    (hapi : LeaderDiscovery.truthy j.api = true)
    (hhttp : LeaderDiscovery.truthy j.http = true) :
    LeaderDiscovery.run_checks
        ⟨some (LeaderDiscovery.info_of_json j), 0, fb, lb⟩
        (List.replicate n (LeaderDiscovery.ReadResult.ok j))
      = (⟨some (LeaderDiscovery.info_of_json j), 0, fb, lb⟩, []) := by
  induction n with
  | zero => rfl
  | succ n ih =>
    rw [List.replicate_succ]
    simp [LeaderDiscovery.run_checks, check_for_leader_fixed j fb lb hapi hhttp,
      ih]

/-- C5, amended: over any unbroken run of `n + 1` rescans all observing the
same valid leader pointer from the no-leader initial state, the on-found
callback fires exactly once (on the first observation) and never re-fires
for the repeated observations; consequently the consumer, starting
disconnected, performs exactly one connection open and no teardown.  (The
callback can fire again for the same identity only after the current leader
has changed to a different identity in between, per the counterexample.) -/
theorem found_fires_once_per_leader_run (j : LeaderDiscovery.JsonPtr)
    (n nReady nDisc : Nat)
    (hapi : LeaderDiscovery.truthy j.api = true)
    (hhttp : LeaderDiscovery.truthy j.http = true) :
    (LeaderDiscovery.run_checks LeaderDiscovery.initState
        (List.replicate (n + 1) (LeaderDiscovery.ReadResult.ok j))).2
      = [LeaderDiscovery.Event.found (LeaderDiscovery.info_of_json j)]
    ∧ LeaderDiscovery.found_count
        (LeaderDiscovery.run_checks LeaderDiscovery.initState
          (List.replicate (n + 1) (LeaderDiscovery.ReadResult.ok j))).2
        (LeaderDiscovery.info_of_json j).api = 1
    ∧ ((process_events nReady nDisc true ⟨none, false⟩
          (LeaderDiscovery.run_checks LeaderDiscovery.initState
            (List.replicate (n + 1) (LeaderDiscovery.ReadResult.ok j))).2).2.countP
          isOpenAct = 1
        ∧ (process_events nReady nDisc true ⟨none, false⟩
            (LeaderDiscovery.run_checks LeaderDiscovery.initState
              (List.replicate (n + 1) (LeaderDiscovery.ReadResult.ok j))).2).2.countP
            isCloseAct = 0) := by
  have hfirst : LeaderDiscovery.check_for_leader LeaderDiscovery.initState
      (LeaderDiscovery.ReadResult.ok j)
      = (⟨some (LeaderDiscovery.info_of_json j), 0, true, true⟩,
         [LeaderDiscovery.Event.found (LeaderDiscovery.info_of_json j)]) := by
    simp [LeaderDiscovery.check_for_leader, LeaderDiscovery.initState, hapi,
      hhttp]
  have hev : (LeaderDiscovery.run_checks LeaderDiscovery.initState
      (List.replicate (n + 1) (LeaderDiscovery.ReadResult.ok j))).2
      = [LeaderDiscovery.Event.found (LeaderDiscovery.info_of_json j)] := by
    rw [List.replicate_succ]
    simp [LeaderDiscovery.run_checks, hfirst,
      run_checks_fixed j true true n hapi hhttp]
  refine ⟨hev, ?_, ?_, ?_⟩
  · rw [hev]
    simp [LeaderDiscovery.found_count]
  · rw [hev]
    simp [process_events, connect_to_redis, disconnect_redis_unlocked,
      isOpenAct, List.countP_cons, List.countP_append]
  · rw [hev]
    simp [process_events, connect_to_redis, disconnect_redis_unlocked,
      isCloseAct, List.countP_cons, List.countP_append]

/-- Witness for `found_fires_once_per_leader_run` at the concrete pointer
`jsonA` observed twice. -/
theorem found_fires_once_per_leader_run_witness :
    LeaderDiscovery.found_count
        (LeaderDiscovery.run_checks LeaderDiscovery.initState
          (List.replicate 2 (LeaderDiscovery.ReadResult.ok LeaderDiscovery.jsonA))).2
        (LeaderDiscovery.info_of_json LeaderDiscovery.jsonA).api = 1 :=
  (found_fires_once_per_leader_run LeaderDiscovery.jsonA 1 1 0 (by decide)
    (by decide)).2.1

end LeaderStorage

namespace ServiceDiscovery

/-- C3, counterexample: discovery does NOT implement the strict liveness
bound `now − lastHeartbeat < stalenessThreshold`: a running record whose
heartbeat age equals the threshold exactly (age 60 at threshold 60) is
surfaced by `discover_service`, although the claimed strict predicate
excludes it (`_is_service_stale` uses `age > threshold`). -/
theorem live_strict_boundary_counterexample :
    ¬ (∀ (threshold now : ℤ) (dir : List DirEntry) (name : String)
        (info : ServiceInfo),
        discover_service threshold now dir name = some info →
        live_spec threshold now info = true) := by
  intro h
  have hc := h 60 60 [("svc-h1.json", some boundaryInfo)] "svc" boundaryInfo
    (by decide)
  exact absurd hc (by decide)

/-- C3, amended: discovery surfaces a record iff it is live, where live
means `now − lastHeartbeat ≤ stalenessThreshold` (non-strict at the
boundary) and `status = running`; any record whose heartbeat age strictly
exceeds the threshold is excluded regardless of status, and any record with
a status other than `running` is excluded even with a fresh heartbeat. -/
theorem live_iff_age_le_threshold (threshold now : ℤ) (info : ServiceInfo) :
    (is_live threshold now info = true ↔
      ((∃ t, info.lastHeartbeat = some t ∧ now - t ≤ threshold)
        ∧ info.status = "running"))
    ∧ (discover_service threshold now [("svc-h1.json", some info)] "svc"
        = if is_live threshold now info then some info else none)
    ∧ (∀ t, info.lastHeartbeat = some t → threshold < now - t →
        is_live threshold now info = false)
    ∧ (info.status ≠ "running" → is_live threshold now info = false) := by
  have hfn : (("svc-h1.json" : String) == "svc" ++ ".json") = false := by decide
  have hs1 : starts_with "svc-h1.json" "svc-" = true := by decide
  have hs2 : ends_with "svc-h1.json" ".json" = true := by decide
  refine ⟨?_, ?_, ?_, ?_⟩
  · cases hb : info.lastHeartbeat with
    | none => simp [is_live, is_service_stale, hb]
    | some t => simp [is_live, is_service_stale, hb, not_lt]
  · by_cases hl : is_live threshold now info = true
    · simp [discover_service, lookup_file, List.find?, hfn, scan_hostname_files, hs1,
        hs2, hl]
    · simp only [Bool.not_eq_true] at hl
      simp [discover_service, lookup_file, List.find?, hfn, scan_hostname_files, hs1,
        hs2, hl]
  · intro t ht hgt
    simp [is_live, is_service_stale, ht, hgt]
  · intro hs
    simp [is_live, hs]

/-- Witness for `live_iff_age_le_threshold`: a record whose heartbeat age 61
exceeds the threshold 60 is not live even though its status is running. -/
theorem live_iff_age_le_threshold_witness :
    is_live 60 61 boundaryInfo = false :=
  (live_iff_age_le_threshold 60 61 boundaryInfo).2.2.1 0 rfl (by norm_num)

/-- The meta-core accumulator of `discover_all_services`' scanning loop ends
up holding the starting accumulator followed by every live meta-core record
of the directory, in enumeration order. -/
theorem discover_all_loop_mc (threshold now : ℤ) (dir : List DirEntry)
    (seen : List String) (svcs mc : List ServiceInfo) :
    (discover_all_loop threshold now dir seen svcs mc).2
      = mc ++ meta_core_candidates threshold now dir := by
  induction dir generalizing seen svcs mc with
  | nil => simp [discover_all_loop, meta_core_candidates]
  | cons e rest ih =>
    obtain ⟨fn, c⟩ := e
    by_cases hjson : ends_with fn ".json" = true
    · cases c with
      | none =>
        simp [discover_all_loop, meta_core_candidates, hjson, List.filter_cons,
          List.filterMap_cons, ih]
      | some info =>
        by_cases hst : is_service_stale threshold now info = true
        · have hlive : (is_live threshold now info
              && (info.name == "meta-core")) = false := by
            simp [is_live, hst]
          simp [discover_all_loop, meta_core_candidates, hjson, hst,
            List.filter_cons, List.filterMap_cons, hlive, ih]
        · rw [Bool.not_eq_true] at hst
          by_cases hrun : info.status = "running"
          · by_cases hmcname : info.name = "meta-core"
            · have hl : is_live threshold now info = true := by
                simp [is_live, hst, hrun]
              have hlive : (is_live threshold now info
                  && (info.name == "meta-core")) = true := by
                simp [hl, hmcname]
              simp [discover_all_loop, meta_core_candidates, hjson, hst, hrun,
                hmcname, List.filter_cons, List.filterMap_cons, hlive, hl, ih]
            · have hlive : (is_live threshold now info
                  && (info.name == "meta-core")) = false := by
                simp [hmcname]
              by_cases hded : info.name ≠ "" ∧ info.name ∉ seen
              · simp [discover_all_loop, meta_core_candidates, hjson, hst,
                  hrun, hmcname, hded, List.filter_cons, List.filterMap_cons,
                  hlive, ih]
              · simp [discover_all_loop, meta_core_candidates, hjson, hst,
                  hrun, hmcname, hded, List.filter_cons, List.filterMap_cons,
                  hlive, ih]
          · have hlive : (is_live threshold now info
                && (info.name == "meta-core")) = false := by
              simp [is_live, hrun]
            simp [discover_all_loop, meta_core_candidates, hjson, hst, hrun,
              List.filter_cons, List.filterMap_cons, hlive, ih]
    · simp [discover_all_loop, meta_core_candidates, hjson, List.filter_cons,
        ih]

/-- No record accumulated in the deduplicated-services list of the scanning
loop is named meta-core (meta-core instances are diverted to their own
accumulator). -/
theorem discover_all_loop_svcs_no_meta (threshold now : ℤ) (dir : List DirEntry)
    (seen : List String) (svcs mc : List ServiceInfo)
    (h : ∀ i ∈ svcs, i.name ≠ "meta-core") :
    ∀ i ∈ (discover_all_loop threshold now dir seen svcs mc).1,
      i.name ≠ "meta-core" := by
  induction dir generalizing seen svcs mc with
  | nil => simpa [discover_all_loop] using h
  | cons e rest ih =>
    obtain ⟨fn, c⟩ := e
    by_cases hjson : ends_with fn ".json" = true
    · cases c with
      | none => simpa [discover_all_loop, hjson] using ih seen svcs mc h
      | some info =>
        by_cases hst : is_service_stale threshold now info = true
        · simpa [discover_all_loop, hjson, hst] using ih seen svcs mc h
        · rw [Bool.not_eq_true] at hst
          by_cases hrun : info.status = "running"
          · by_cases hmcname : info.name = "meta-core"
            · simpa [discover_all_loop, hjson, hst, hrun, hmcname] using
                ih seen svcs (mc ++ [info]) h
            · by_cases hded : info.name ≠ "" ∧ info.name ∉ seen
              · have h2 : ∀ i ∈ svcs ++ [info], i.name ≠ "meta-core" := by
                  intro i hi
                  rcases List.mem_append.mp hi with hi | hi
                  · exact h i hi
                  · simp only [List.mem_singleton] at hi
                    subst hi
                    exact hmcname
                simpa [discover_all_loop, hjson, hst, hrun, hmcname, hded]
                  using ih (seen ++ [info.name]) (svcs ++ [info]) mc h2
              · simpa [discover_all_loop, hjson, hst, hrun, hmcname, hded]
                  using ih seen svcs mc h
          · simpa [discover_all_loop, hjson, hst, hrun] using ih seen svcs mc h
    · simpa [discover_all_loop, hjson] using ih seen svcs mc h

/-- Every live meta-core candidate is indeed named meta-core. -/
theorem meta_core_candidates_name (threshold now : ℤ) (dir : List DirEntry)
    (x : ServiceInfo) (hx : x ∈ meta_core_candidates threshold now dir) :
    (x.name == "meta-core") = true := by
  have h2 := (List.mem_filter.mp hx).2
  simp only [Bool.and_eq_true] at h2
  exact h2.2

/-- C6: for every directory whose live meta-core candidates (in enumeration
order) are `c :: cs`, `discover_all_services` surfaces exactly one meta-core
representative, namely the first leader-tagged candidate when one exists and
otherwise the first live candidate in enumeration order; in particular
whenever some live candidate has `role = leader`, the surfaced
representative is leader-tagged, for every file enumeration order (the
theorem quantifies over all directory listings). -/
theorem discover_all_leader_tiebreak (threshold now : ℤ) (dir : List DirEntry)
    (c : ServiceInfo) (cs : List ServiceInfo)
    (h : meta_core_candidates threshold now dir = c :: cs) :
    ((discover_all_services threshold now dir).filter
        fun i => i.name == "meta-core")
      = [((c :: cs).find? fun s => s.role == some "leader").getD c]
    ∧ ((∃ x ∈ c :: cs, x.role = some "leader") →
        (((c :: cs).find? fun s => s.role == some "leader").getD c).role
          = some "leader")
    ∧ ((∀ x ∈ c :: cs, x.role ≠ some "leader") →
        ((c :: cs).find? fun s => s.role == some "leader").getD c = c) := by
  refine ⟨?_, ?_, ?_⟩
  · rcases hloop : discover_all_loop threshold now dir [] [] [] with ⟨svcs, mc⟩
    have hmc : mc = c :: cs := by
      have := discover_all_loop_mc threshold now dir [] [] []
      rw [hloop] at this
      simpa [h] using this
    have hsv : ∀ i ∈ svcs, i.name ≠ "meta-core" := by
      have := discover_all_loop_svcs_no_meta threshold now dir [] [] []
        (by simp)
      rw [hloop] at this
      exact this
    subst hmc
    have hrepmem :
        (((c :: cs).find? fun s => s.role == some "leader").getD c)
          ∈ c :: cs := by
      cases hfind : (c :: cs).find? fun s => s.role == some "leader" with
      | none => simp
      | some y =>
        simp only [Option.getD_some]
        exact List.mem_of_find?_eq_some hfind
    have hrepname :
        ((((c :: cs).find? fun s => s.role == some "leader").getD c).name
          == "meta-core") = true := by
      refine meta_core_candidates_name threshold now dir _ ?_
      rw [h]
      exact hrepmem
    have hnil : svcs.filter (fun i => i.name == "meta-core") = [] := by
      refine List.filter_eq_nil_iff.mpr fun i hi => ?_
      simp [hsv i hi]
    simp [discover_all_services, hloop, List.filter_append, hnil,
      List.filter_cons, hrepname]
  · rintro ⟨x, hx, hrole⟩
    have hsome : (((c :: cs).find? fun s => s.role == some "leader")).isSome := by
      refine List.find?_isSome.mpr ⟨x, hx, ?_⟩
      simp [hrole]
    obtain ⟨y, hy⟩ := Option.isSome_iff_exists.mp hsome
    have hpy := List.find?_some hy
    rw [hy]
    simp only [Option.getD_some]
    simpa using hpy
  · intro hall
    have hnone : ((c :: cs).find? fun s => s.role == some "leader") = none := by
      refine List.find?_eq_none.mpr fun x hx => ?_
      simp [hall x hx]
    rw [hnone]
    simp

/-- Witness for `discover_all_leader_tiebreak`: a two-candidate directory in
which only the second candidate is leader-tagged, listed in an order where
the follower is enumerated first; the leader-tagged candidate is surfaced. -/
theorem discover_all_leader_tiebreak_witness :
    ((discover_all_services 60 10
        [("meta-core-h2.json",
          some ⟨"meta-core", "h2", "http://h2", "running", some 5,
            some "follower"⟩),
         ("meta-core-h1.json",
          some ⟨"meta-core", "h1", "http://h1", "running", some 5,
            some "leader"⟩)]).filter fun i => i.name == "meta-core")
      = [⟨"meta-core", "h1", "http://h1", "running", some 5, some "leader"⟩] :=
  (discover_all_leader_tiebreak 60 10
    [("meta-core-h2.json",
      some ⟨"meta-core", "h2", "http://h2", "running", some 5,
        some "follower"⟩),
     ("meta-core-h1.json",
      some ⟨"meta-core", "h1", "http://h1", "running", some 5,
        some "leader"⟩)]
    ⟨"meta-core", "h2", "http://h2", "running", some 5, some "follower"⟩
    [⟨"meta-core", "h1", "http://h1", "running", some 5, some "leader"⟩]
    (by decide)).1

/-- C7, counterexample: `discover_service` does NOT scan the name-prefix
pattern first with the exact legacy filename as mere fallback: with a live
record in the legacy file `svc.json` and a live record in the prefix file
`svc-h1.json`, the code returns the legacy record (the exact filename is
checked first), while the claimed order returns the prefix match. -/
theorem discover_exact_first_counterexample :
    ¬ (∀ (threshold now : ℤ) (dir : List DirEntry) (name : String),
        discover_service threshold now dir name
          = discover_service_claimed threshold now dir name) := by
  intro h
  have hc := h 60 60
    [("svc.json", some exactInfo), ("svc-h1.json", some prefixInfo)] "svc"
  exact absurd hc (by decide)

/-- Under the assumption that every prefix-matching file parses, the
directory scan of `discover_service` returns the first live record among the
prefix-matching files in enumeration order. -/
theorem scan_hostname_files_eq_find (threshold now : ℤ) (name : String)
    (dir : List DirEntry)
    (hparse : ∀ e ∈ dir,
      (starts_with e.1 (name ++ "-") && ends_with e.1 ".json") = true →
      e.2 ≠ none) :
    scan_hostname_files threshold now name dir
      = ((dir.filter fun e => starts_with e.1 (name ++ "-")
            && ends_with e.1 ".json").filterMap Prod.snd).find?
          (fun i => is_live threshold now i) := by
  induction dir with
  | nil => simp [scan_hostname_files]
  | cons e rest ih =>
    obtain ⟨fn, c⟩ := e
    have ih2 := ih fun x hx hm => hparse x (List.mem_cons_of_mem _ hx) hm
    by_cases hm : (starts_with fn (name ++ "-") && ends_with fn ".json") = true
    · cases c with
      | none =>
        exact absurd rfl (hparse (fn, none) (List.mem_cons_self _ _) hm)
      | some info =>
        by_cases hl : is_live threshold now info = true
        · simp [scan_hostname_files, hm, hl, List.filter_cons, List.filterMap_cons]
        · simp [scan_hostname_files, hm, hl, List.filter_cons, List.filterMap_cons,
            ih2]
    · simp [scan_hostname_files, hm, List.filter_cons, ih2]

/-- C7, amended: `discover_service` checks the exact legacy filename
`{name}.json` FIRST and returns its record when that record is live;
otherwise (legacy record absent or not live) it scans the files matching the
name-prefix pattern `{name}-*.json` and returns the first live match in
enumeration order, `none` when no live match exists — all under the
assumption that every prefix-matching candidate file parses (an unparsable
candidate aborts the scan with `None`). -/
theorem discover_service_exact_first (threshold now : ℤ) (dir : List DirEntry)
    (name : String)
    (hparse : ∀ e ∈ dir,
      (starts_with e.1 (name ++ "-") && ends_with e.1 ".json") = true →
      e.2 ≠ none) :
    (∀ info, lookup_file dir (name ++ ".json") = some (some info) →
        is_live threshold now info = true →
        discover_service threshold now dir name = some info)
    ∧ (∀ info, lookup_file dir (name ++ ".json") = some (some info) →
        is_live threshold now info = false →
        discover_service threshold now dir name
          = ((dir.filter fun e => starts_with e.1 (name ++ "-")
                && ends_with e.1 ".json").filterMap Prod.snd).find?
              (fun i => is_live threshold now i))
    ∧ (lookup_file dir (name ++ ".json") = none →
        discover_service threshold now dir name
          = ((dir.filter fun e => starts_with e.1 (name ++ "-")
                && ends_with e.1 ".json").filterMap Prod.snd).find?
              (fun i => is_live threshold now i)) := by
  refine ⟨?_, ?_, ?_⟩
  · intro info hlk hl
    simp [discover_service, hlk, hl]
  · intro info hlk hl
    simp [discover_service, hlk, hl,
      scan_hostname_files_eq_find threshold now name dir hparse]
  · intro hlk
    simp [discover_service, hlk,
      scan_hostname_files_eq_find threshold now name dir hparse]

/-- Witness for `discover_service_exact_first`: a directory holding only the
live legacy record `svc.json`, whose record is returned. -/
theorem discover_service_exact_first_witness :
    discover_service 60 60 [("svc.json", some exactInfo)] "svc"
      = some exactInfo :=
  (discover_service_exact_first 60 60 [("svc.json", some exactInfo)] "svc"
    (by decide)).1 exactInfo (by decide) (by decide)

/-- Looking up the key just written by `set_key` yields the new value. -/
theorem lookup_set_key_self (d : Json) (k v : String) :
    (set_key d k v).lookup k = some v := by
  induction d with
  | nil => simp [set_key, List.lookup]
  | cons e rest ih =>
    obtain ⟨k1, v1⟩ := e
    by_cases hk : (k1 == k) = true
    · simp [set_key, hk, List.lookup]
    · rw [Bool.not_eq_true] at hk
      have hk2 : (k == k1) = false := by
        rw [beq_eq_false_iff_ne] at hk ⊢
        exact fun hq => hk hq.symm
      simp [set_key, hk, List.lookup, hk2, ih]

/-- Looking up any other key after `set_key` is unchanged. -/
theorem lookup_set_key_ne (d : Json) (k v k1 : String) (h : k1 ≠ k) :
    (set_key d k v).lookup k1 = d.lookup k1 := by
  have hb1 : (k1 == k) = false := beq_eq_false_iff_ne.mpr h
  induction d with
  | nil => simp [set_key, List.lookup, hb1]
  | cons e rest ih =>
    obtain ⟨k2, v2⟩ := e
    by_cases hk : (k2 == k) = true
    · have hk2 : k2 = k := by simpa using hk
      subst hk2
      simp [set_key, List.lookup, hb1]
    · rw [Bool.not_eq_true] at hk
      cases hb : (k1 == k2) <;> simp [set_key, hk, List.lookup, hb, ih]

/-- C8: `heartbeat()` on an existing record file rewrites exactly the
`lastHeartbeat` field — every other key of the record JSON (name, hostname,
baseUrl, status, role, anything else) reads back unchanged — and on a
missing record file it re-registers (fresh record via `register()` followed
by `update_status('running')`) before continuing, leaving a record with the
configured identity, status running and a fresh heartbeat. -/
theorem heartbeat_frame_and_reregister (cfg : ServiceConfig) (d : Json)
    (now k : String) :
    heartbeat cfg (some d) now = some (set_key d "lastHeartbeat" now)
    ∧ (k ≠ "lastHeartbeat" →
        (set_key d "lastHeartbeat" now).lookup k = d.lookup k)
    ∧ (set_key d "lastHeartbeat" now).lookup "lastHeartbeat" = some now
    ∧ heartbeat cfg none now
        = some (set_key (set_key (register cfg now) "status" "running")
            "lastHeartbeat" now)
    ∧ ((heartbeat cfg none now).getD []).lookup "status" = some "running"
    ∧ ((heartbeat cfg none now).getD []).lookup "name" = some cfg.service_name
    ∧ ((heartbeat cfg none now).getD []).lookup "hostname" = some cfg.hostname
    ∧ ((heartbeat cfg none now).getD []).lookup "baseUrl" = some cfg.base_url
    ∧ ((heartbeat cfg none now).getD []).lookup "lastHeartbeat" = some now := by
  refine ⟨rfl, fun h => lookup_set_key_ne d "lastHeartbeat" now k h,
    lookup_set_key_self d "lastHeartbeat" now, rfl, ?_, ?_, ?_, ?_, ?_⟩
  all_goals rfl

/-- Witness for `heartbeat_frame_and_reregister`: on a concrete record the
`status` field survives a heartbeat unchanged. -/
theorem heartbeat_frame_and_reregister_witness :
    (set_key [("name", "svc"), ("status", "running"), ("lastHeartbeat", "t0")]
        "lastHeartbeat" "t1").lookup "status" = some "running" :=
  (heartbeat_frame_and_reregister ⟨"svc", "h1", "http://u"⟩
    [("name", "svc"), ("status", "running"), ("lastHeartbeat", "t0")]
    "t1" "status").2.1 (by decide)

end ServiceDiscovery

namespace LeaderClient

/-- C9: `wait_for_leader` surfaces an error iff every poll within the
deadline reported no leader (and returns the first leader observed
otherwise), while `get_leader_info` reports every other leader-absence case
— a missing pointer file, or a failed descriptor fetch — as `none`, a
non-erroring result (the embedded functions are total, mirroring the
source's catch-all handlers, so no exception escapes them). -/
theorem wait_for_leader_error_iff (polls : List (Option LeaderLockInfo)) :
    ((∃ e, wait_for_leader polls = Except.error e) ↔ ∀ p ∈ polls, p = none)
    ∧ (∀ pre rest info, (∀ p ∈ pre, p = (none : Option LeaderLockInfo)) →
        wait_for_leader (pre ++ some info :: rest) = Except.ok info)
    ∧ (∀ fetch nowMs, get_leader_info TextRead.notFound fetch nowMs = none)
    ∧ (∀ read fetch nowMs u, api_url_from_file read = some u →
        fetch u = none → get_leader_info read fetch nowMs = none) := by
  refine ⟨?_, ?_, fun fetch nowMs => rfl, ?_⟩
  · induction polls with
    | nil =>
      constructor
      · intro _ p hp
        simp at hp
      · intro _
        exact ⟨_, rfl⟩
    | cons p rest ih =>
      cases p with
      | none => simpa [wait_for_leader] using ih
      | some info => simp [wait_for_leader]
  · intro pre rest info h
    induction pre with
    | nil => simp [wait_for_leader]
    | cons p pre2 ih =>
      have hp : p = none := h p (List.mem_cons_self _ _)
      subst hp
      exact ih fun q hq => h q (List.mem_cons_of_mem _ hq)
  · intro read fetch nowMs u hu hf
    simp [get_leader_info, hu, hf]

/-- Witness for `wait_for_leader_error_iff`: two leaderless polls inside the
deadline end in the timeout error. -/
theorem wait_for_leader_error_iff_witness :
    ∃ e, wait_for_leader ([none, none] : List (Option LeaderLockInfo))
      = Except.error e :=
  (wait_for_leader_error_iff ([none, none] : List (Option LeaderLockInfo))).1.mpr
    (by simp)

end LeaderClient

end MetaStremio
